import Mathlib

/-!
# Verification of the Data Vault session/dataset model

Shallow embedding of `data_vault.py` (the `DataVault` LabRAD server).  The
server delegates to a `datavault` backend module (SessionStore / Session /
Dataset) that is not part of this repository's sources; those backend
operations are modelled from the spec and marked as such in their doc
comments.  The `DataVault` request handlers themselves (`cd`, `mkdir`,
`new`, `open`, `add`, `get`, the parameter and comment handlers, and
`expireContext`) are translated directly from `data_vault.py`.

Python's mutable object graph is rendered as explicit state passing: the
`SessionStore` value carries every `Session` (keyed by its path), each
`Session` carries its `Dataset`s, and a context's Python references
`c['session']` / `c['datasetObj']` become path/name keys into that store.
A handler returns the updated store and context together with an
`Except Err` result; mutations performed before an exception is raised
survive in the returned store, matching Python exception semantics.
-/

abbrev Key := Nat

abbrev DirPath := List String

/-- Dataset state.  `listeners` and `comment_listeners` are the streaming
subscriber structures (context key paired with last-delivered offset, per
the spec's `dataListeners`/`commentListeners`); `param_listeners` is the
one-shot set of keys to notify on the next parameter addition.  Rows are
numeric tuples; values are modelled as integers. -/
structure Dataset where
  name : String
  independents : List (String × String)
  dependents : List (String × String × String)
  rows : List (List Int)
  parameters : List (String × Int)
  comments : List (String × String)
  listeners : List (Key × Nat)
  param_listeners : Finset Key
  comment_listeners : List (Key × Nat)
deriving DecidableEq, Inhabited

/-- A directory-tree node: its path, the structural-change listener set and
the datasets it owns.  `counter` is the next dataset sequence number. -/
structure Session where
  path : DirPath
  listeners : Finset Key
  datasets : List Dataset
  counter : Nat
deriving DecidableEq

/-- The process-wide registry of all sessions ever created. -/
structure SessionStore where
  sessions : List Session
deriving DecidableEq

/-- Per-client-context state: current path, the session reference
(`c['session']`, rendered as the session's path key), the open dataset
reference (`c['dataset']`/`c['datasetObj']`, rendered as owning-session
path and dataset name), cursors and the writing flag. -/
structure Ctx where
  path : DirPath
  sessionPath : DirPath
  dataset : Option (DirPath × String)
  filepos : Nat
  commentpos : Nat
  writing : Bool
deriving DecidableEq

/-- The error conditions raised by the handlers (`datavault.errors`). -/
inductive Err where
  | DirectoryNotFound (p : DirPath)
  | DirectoryExists (p : DirPath)
  | EmptyName
  | NoDataset
  | DatasetNotFound
  | ReadOnly
  | BadData
  | ParameterNotFound
deriving DecidableEq

instance {e a : Type} [DecidableEq e] [DecidableEq a] :
    DecidableEq (Except e a) := fun x y =>
  match x, y with
  | .ok u, .ok v =>
    if h : u = v then .isTrue (by rw [h])
    else .isFalse fun hh => h (Except.ok.inj hh)
  | .error u, .error v =>
    if h : u = v then .isTrue (by rw [h])
    else .isFalse fun hh => h (Except.error.inj hh)
  | .ok _, .error _ => .isFalse fun hh => Except.noConfusion hh
  | .error _, .ok _ => .isFalse fun hh => Except.noConfusion hh

namespace SessionStore

/-- Modelled from the spec: `SessionStore.exists(path)` returns whether a
Session has already been created for `path`, without creating it.
(The `datavault` backend module is not among the repository sources.) -/
def exists_ (st : SessionStore) (p : DirPath) : Bool :=
  st.sessions.any fun s => s.path == p

/-- Resolve a path to its session, if created. -/
def findSession (st : SessionStore) (p : DirPath) : Option Session :=
  st.sessions.find? fun s => s.path == p

/-- A freshly created session: empty listener set, no datasets. -/
def freshSession (p : DirPath) : Session :=
  { path := p, listeners := ∅, datasets := [], counter := 1 }

/-- One creation step: add a session for `p` if none exists yet. -/
def get1 (st : SessionStore) (p : DirPath) : SessionStore :=
  if st.exists_ p then st else ⟨st.sessions ++ [freshSession p]⟩

/-- The ancestor chain of a path: `[p.take 1, p.take 2, ..., p]`. -/
def ancestorPaths (p : DirPath) : List DirPath :=
  (List.range p.length).map fun i => p.take (i + 1)

/-- Modelled from the spec: `SessionStore.get(path)` returns the Session for
`path`, creating it and all missing ancestors on demand; it never fails.
(The `datavault` backend module is not among the repository sources.)
In the state-passing embedding `get` returns the updated store; the session
itself is read back with `findSession`. -/
def get (st : SessionStore) (p : DirPath) : SessionStore :=
  (ancestorPaths p).foldl get1 st

/-- Point-update of the session stored at path `p` (Python mutates the
session object in place through a reference; here we rewrite the store). -/
def modifySession (st : SessionStore) (p : DirPath) (f : Session → Session) :
    SessionStore :=
  ⟨st.sessions.map fun s => if s.path = p then f s else s⟩

/-- The listener set recorded for path `p` (empty if no session exists). -/
def listenersAt (st : SessionStore) (p : DirPath) : Finset Key :=
  ((st.findSession p).map Session.listeners).getD ∅

/-- Resolve a dataset by owning-session path and dataset name. -/
def findDs (st : SessionStore) (p : DirPath) (nm : String) : Option Dataset :=
  (st.findSession p).bind fun s => s.datasets.find? fun d => d.name == nm

/-- Point-update of the dataset named `nm` in the session at path `p`. -/
def modifyDs (st : SessionStore) (p : DirPath) (nm : String)
    (f : Dataset → Dataset) : SessionStore :=
  st.modifySession p fun s =>
    { s with datasets := s.datasets.map fun d => if d.name = nm then f d else d }

/-- Every session's ancestors are present (an invariant of reachable
stores: sessions are only ever created through `get`). -/
def ancestorClosed (st : SessionStore) : Prop :=
  ∀ s ∈ st.sessions, ∀ k < s.path.length, st.exists_ (s.path.take (k + 1)) = true

instance : DecidablePred ancestorClosed := fun st =>
  inferInstanceAs (Decidable (∀ s ∈ st.sessions, ∀ k < s.path.length, _))

end SessionStore

/-- Look up a key's recorded offset in a streaming-listener structure. -/
def lookupOffset (ls : List (Key × Nat)) (k : Key) : Option Nat :=
  (ls.find? fun e => e.1 == k).map fun e => e.2

/-- Modelled from the spec: `Dataset.keepStreaming(context, pos)` — the
calling context's entry in the streaming-listener structure is
updated/inserted at the given offset.  (The `datavault` backend module is
not among the repository sources.) -/
def setListener (ls : List (Key × Nat)) (k : Key) (pos : Nat) :
    List (Key × Nat) :=
  match ls with
  | [] => [(k, pos)]
  | e :: rest => if e.1 = k then (k, pos) :: rest else e :: setListener rest k pos

namespace Dataset

/-- Modelled from the spec: `Dataset.addData(rows)` fails if any row's arity
does not match the schema, otherwise appends all rows atomically and
signals "data available" to every context in the data-listener structure
whose cursor is behind the new length.  Returns the new dataset together
with the keys notified.  (The `datavault` backend module is not among the
repository sources.) -/
def addData (d : Dataset) (data : List (List Int)) :
    Except Err (Dataset × List Key) :=
  let arity := d.independents.length + d.dependents.length
  if data.all fun r => r.length == arity then
    let d' := { d with rows := d.rows ++ data }
    .ok (d', (d.listeners.filter fun e => e.2 < d'.rows.length).map fun e => e.1)
  else
    .error .BadData

/-- Modelled from the spec: `Dataset.getData(limit, fromOffset)` returns the
rows in `[fromOffset, fromOffset+limit)` (to the end if no limit) and the
new offset to resume from.  (The `datavault` backend module is not among
the repository sources.) -/
def getData (d : Dataset) (limit : Option Nat) (pos : Nat) :
    List (List Int) × Nat :=
  let chunk := match limit with
    | none => d.rows.drop pos
    | some l => (d.rows.drop pos).take l
  (chunk, pos + chunk.length)

/-- Modelled from the spec: `Dataset.getComments(limit, fromOffset)` — same
offset/limit contract as `getData`, over the comment log. -/
def getCommentsAt (d : Dataset) (limit : Option Nat) (pos : Nat) :
    List (String × String) × Nat :=
  let chunk := match limit with
    | none => d.comments.drop pos
    | some l => (d.comments.drop pos).take l
  (chunk, pos + chunk.length)

/-- Modelled from the spec: `Dataset.addParameter(name, value)` appends the
parameter entry, emits "new parameter" once to every context in the
one-shot parameter-listener set, then clears that set.  Returns the new
dataset and the notified keys. -/
def addParameter (d : Dataset) (name : String) (value : Int) :
    Dataset × Finset Key :=
  ({ d with parameters := d.parameters ++ [(name, value)],
            param_listeners := ∅ },
   d.param_listeners)

/-- Modelled from the spec: `Dataset.getParameter(name, caseSensitive)` —
exact match when case-sensitive, case-insensitive scan otherwise; fails
with a not-found condition if absent. -/
def getParameter (d : Dataset) (name : String) (cs : Bool) :
    Except Err Int :=
  let hit := if cs then d.parameters.find? fun e => e.1 == name
    else d.parameters.find? fun e => e.1.toLower == name.toLower
  match hit with
  | some e => .ok e.2
  | none => .error .ParameterNotFound

/-- Modelled from the spec: `Dataset.addComment(user, text)` appends the
comment and emits "comments available" to every context in the
comment-listener structure.  Returns the new dataset and the notified
keys. -/
def addComment (d : Dataset) (user text : String) : Dataset × List Key :=
  ({ d with comments := d.comments ++ [(user, text)] },
   d.comment_listeners.map fun e => e.1)

end Dataset

/-- A newly constructed dataset: the declared schema, no rows, no
parameters, no comments, no listeners. -/
def freshDataset (nm : String) (indeps : List (String × String))
    (deps : List (String × String × String)) : Dataset :=
  { name := nm, independents := indeps, dependents := deps, rows := [],
    parameters := [], comments := [], listeners := [],
    param_listeners := ∅, comment_listeners := [] }

namespace Session

/-- Modelled from the spec: `Session.newDataset(name, ...)` allocates the
next sequence number, prefixes it to the title so that names are unique in
creation order, registers the dataset and returns it. -/
def newDataset (s : Session) (title : String)
    (indeps : List (String × String))
    (deps : List (String × String × String)) : Session × Dataset :=
  let d := freshDataset (toString s.counter ++ " - " ++ title) indeps deps
  ({ s with datasets := s.datasets ++ [d], counter := s.counter + 1 }, d)

/-- Modelled from the spec: `Session.openDataset(nameOrIndex)` resolves an
existing dataset by exact name or by 1-based position in creation order;
fails with a not-found condition if absent. -/
def openDataset (s : Session) (arg : String ⊕ Nat) : Option Dataset :=
  match arg with
  | .inl nm => s.datasets.find? fun d => d.name == nm
  | .inr i => if i = 0 then none else s.datasets.get? (i - 1)

end Session

/-- The `cd` argument: `current` (Python `path=None`, query only), a numeric
pop count, or a segment sequence (a single string is the singleton list). -/
inductive CdArg where
  | current
  | up (n : Nat)
  | segs (l : List String)

namespace DataVault

open SessionStore

/-- Embeds `initContext`: start at the root session and subscribe to it. -/
def initContext (st : SessionStore) (key : Key) : SessionStore × Ctx :=
  let st := st.get [""]
  let st := st.modifySession [""] fun s => { s with listeners := insert key s.listeners }
  (st, { path := [""], sessionPath := [""], dataset := none,
         filepos := 0, commentpos := 0, writing := false })

/-- Embeds `expireContext`: remove the key from every session's listener set and
from every dataset's data/parameter/comment listener structures. -/
def expireContext (st : SessionStore) (key : Key) : SessionStore :=
  ⟨st.sessions.map fun s =>
    { s with
      listeners := s.listeners.erase key,
      datasets := s.datasets.map fun d =>
        { d with
          listeners := d.listeners.filter fun e => ¬ e.1 = key,
          param_listeners := d.param_listeners.erase key,
          comment_listeners := d.comment_listeners.filter fun e => ¬ e.1 = key } }⟩

/-- One segment of `cd` resolution: the empty segment resets the working
path to the root, any other segment extends the working path. -/
def cdSeg (temp : DirPath) (seg : String) : DirPath :=
  if seg = "" then [""] else temp ++ [seg]

/-- The loop body of `cd` over a segment sequence: each resolved path must
already exist (else not-found is raised) unless `create` is set; the
session is then touched (created on demand) via `get`. -/
def cdResolve (st : SessionStore) (temp : DirPath) (segs : List String)
    (create : Bool) : SessionStore × Except Err DirPath :=
  match segs with
  | [] => (st, .ok temp)
  | seg :: rest =>
    if !(st.exists_ (cdSeg temp seg)) && !create then
      (st, .error (.DirectoryNotFound (cdSeg temp seg)))
    else
      cdResolve (st.get (cdSeg temp seg)) (cdSeg temp seg) rest create

/-- The sequence of paths visited while resolving a segment sequence
against a starting path. -/
def resolvedPaths (temp : DirPath) (segs : List String) : List DirPath :=
  match segs with
  | [] => []
  | seg :: rest => cdSeg temp seg :: resolvedPaths (cdSeg temp seg) rest

/-- The tail of `cd`: if the resolved path differs from the current one,
migrate the context's key from the old session's listener set to the new
session's, and update the recorded path and session reference. -/
def cdFinish (st : SessionStore) (c : Ctx) (key : Key) (temp : DirPath) :
    SessionStore × Ctx × Except Err DirPath :=
  if c.path = temp then
    (st, c, .ok c.path)
  else
    let st1 := st.modifySession c.sessionPath
      fun s => { s with listeners := s.listeners.erase key }
    let st2 := st1.get temp
    let st3 := st2.modifySession temp
      fun s => { s with listeners := insert key s.listeners }
    (st3, { c with sessionPath := temp, path := temp }, .ok temp)

/-- Embeds `DataVault.cd` (setting 7). -/
def cd (st : SessionStore) (c : Ctx) (key : Key) (arg : CdArg)
    (create : Bool) : SessionStore × Ctx × Except Err DirPath :=
  match arg with
  | .current => (st, c, .ok c.path)
  | .up n =>
    if 0 < n then
      let t := c.path.take (c.path.length - n)
      cdFinish st c key (if t.length = 0 then [""] else t)
    else
      cdFinish st c key c.path
  | .segs segs =>
    match cdResolve st c.path segs create with
    | (st1, .ok temp) => cdFinish st1 c key temp
    | (st1, .error e) => (st1, c, .error e)

/-- Embeds `DataVault.mkdir` (setting 8). -/
def mkdir (st : SessionStore) (c : Ctx) (name : String) :
    SessionStore × Ctx × Except Err DirPath :=
  if name = "" then
    (st, c, .error .EmptyName)
  else
    let path := c.path ++ [name]
    if st.exists_ path then
      (st, c, .error (.DirectoryExists path))
    else
      (st.get path, c, .ok path)

/-- The session the context currently references (`self.getSession(c)`);
the reference is always valid in reachable states, so a missing session
falls back to a fresh placeholder. -/
def getSessionOf (st : SessionStore) (c : Ctx) : Session :=
  (st.findSession c.sessionPath).getD (SessionStore.freshSession c.sessionPath)

/-- The dataset the context currently references (`c['datasetObj']`). -/
def getDsOf (st : SessionStore) (r : DirPath × String) : Dataset :=
  (st.findDs r.1 r.2).getD default

/-- Embeds `DataVault.new` (setting 9): create a dataset in the current session
(the session object is mutated in place in Python, rendered here as a
point-update of the session at the context's session path) and select it
for writing. -/
def new (st : SessionStore) (c : Ctx) (name : String)
    (indeps : List (String × String))
    (deps : List (String × String × String)) :
    SessionStore × Ctx × Except Err (DirPath × String) :=
  let title := if name = "" then "untitled" else name
  let nm := toString (getSessionOf st c).counter ++ " - " ++ title
  let st' := st.modifySession c.sessionPath fun s =>
    (s.newDataset title indeps deps).1
  (st', { c with dataset := some (c.sessionPath, nm),
                 filepos := 0, commentpos := 0, writing := true },
   .ok (c.path, nm))

/-- Embeds `DataVault.open` (setting 10): open an existing dataset for reading and
register the context as a streaming subscriber at offset 0 for both data
and comments (`keepStreaming`/`keepStreamingComments`). -/
def openDs (st : SessionStore) (c : Ctx) (key : Key) (arg : String ⊕ Nat) :
    SessionStore × Ctx × Except Err (DirPath × String) :=
  let sess := getSessionOf st c
  match sess.openDataset arg with
  | none => (st, c, .error .DatasetNotFound)
  | some d =>
    let c' := { c with dataset := some (c.sessionPath, d.name),
                       filepos := 0, commentpos := 0, writing := false }
    let st := st.modifyDs c.sessionPath d.name fun d =>
      { d with listeners := setListener d.listeners key 0,
               comment_listeners := setListener d.comment_listeners key 0 }
    (st, c', .ok (c.path, d.name))

/-- Embeds `DataVault.add` (setting 20): raises no-dataset-open when nothing is
selected, read-only when the dataset was opened for reading, and otherwise
appends the rows; the `ok` payload is the list of keys notified with
"data available". -/
def add (st : SessionStore) (c : Ctx) (data : List (List Int)) :
    SessionStore × Ctx × Except Err (List Key) :=
  match c.dataset with
  | none => (st, c, .error .NoDataset)
  | some r =>
    if !c.writing then
      (st, c, .error .ReadOnly)
    else
      match (getDsOf st r).addData data with
      | .error e => (st, c, .error e)
      | .ok (d', notes) =>
        (st.modifyDs r.1 r.2 fun _ => d', c, .ok notes)

/-- Embeds `DataVault.get` (setting 21): read rows from the current cursor (or from
the start when `startOver`), advance the cursor, and re-register the
context as a streaming data subscriber at the new offset. -/
def get (st : SessionStore) (c : Ctx) (key : Key) (limit : Option Nat)
    (startOver : Bool) : SessionStore × Ctx × Except Err (List (List Int)) :=
  match c.dataset with
  | none => (st, c, .error .NoDataset)
  | some r =>
    let d := getDsOf st r
    let pos := if startOver then 0 else c.filepos
    let (data, pos') := d.getData limit pos
    let c' := { c with filepos := pos' }
    let st := st.modifyDs r.1 r.2 fun d =>
      { d with listeners := setListener d.listeners key pos' }
    (st, c', .ok data)

/-- Embeds `DataVault.variables` (setting 100): the schema of the current dataset. -/
def variablesOf (st : SessionStore) (c : Ctx) :
    SessionStore × Ctx ×
      Except Err (List (String × String) × List (String × String × String)) :=
  match c.dataset with
  | none => (st, c, .error .NoDataset)
  | some r =>
    let d := getDsOf st r
    (st, c, .ok (d.independents, d.dependents))

/-- Embeds `DataVault.parameters` (setting 120): the parameter names; also adds the
context key to the one-shot parameter-listener set. -/
def parameters (st : SessionStore) (c : Ctx) (key : Key) :
    SessionStore × Ctx × Except Err (List String) :=
  match c.dataset with
  | none => (st, c, .error .NoDataset)
  | some r =>
    let d := getDsOf st r
    let st := st.modifyDs r.1 r.2 fun d =>
      { d with param_listeners := insert key d.param_listeners }
    (st, c, .ok (d.parameters.map fun e => e.1))

/-- Embeds `DataVault.add_parameter` (setting 121); the `ok` payload is the set of
keys notified with "new parameter". -/
def add_parameter (st : SessionStore) (c : Ctx) (name : String)
    (value : Int) : SessionStore × Ctx × Except Err (Finset Key) :=
  match c.dataset with
  | none => (st, c, .error .NoDataset)
  | some r =>
    let (d', notes) := (getDsOf st r).addParameter name value
    (st.modifyDs r.1 r.2 fun _ => d', c, .ok notes)

/-- Embeds `DataVault.add_parameters` (setting 124): batch form of
`add_parameter`. -/
def add_parameters (st : SessionStore) (c : Ctx)
    (params : List (String × Int)) : SessionStore × Ctx × Except Err Unit :=
  match c.dataset with
  | none => (st, c, .error .NoDataset)
  | some r =>
    let d' := params.foldl (fun d e => (d.addParameter e.1 e.2).1) (getDsOf st r)
    (st.modifyDs r.1 r.2 fun _ => d', c, .ok ())

/-- Embeds `DataVault.get_name` (setting 126). -/
def get_name (st : SessionStore) (c : Ctx) :
    SessionStore × Ctx × Except Err String :=
  match c.dataset with
  | none => (st, c, .error .NoDataset)
  | some r => (st, c, .ok (getDsOf st r).name)

/-- Embeds `DataVault.get_parameter` (setting 122). -/
def get_parameter (st : SessionStore) (c : Ctx) (name : String)
    (cs : Bool) : SessionStore × Ctx × Except Err Int :=
  match c.dataset with
  | none => (st, c, .error .NoDataset)
  | some r => (st, c, (getDsOf st r).getParameter name cs)

/-- Embeds `DataVault.get_parameters` (setting 123): all (name, value) pairs; also
adds the context key to the one-shot parameter-listener set. -/
def get_parameters (st : SessionStore) (c : Ctx) (key : Key) :
    SessionStore × Ctx × Except Err (List (String × Int)) :=
  match c.dataset with
  | none => (st, c, .error .NoDataset)
  | some r =>
    let d := getDsOf st r
    let st := st.modifyDs r.1 r.2 fun d =>
      { d with param_listeners := insert key d.param_listeners }
    (st, c, .ok d.parameters)

/-- Embeds `DataVault.add_comment` (setting 200); the `ok` payload is the list of
keys notified with "comments available". -/
def add_comment (st : SessionStore) (c : Ctx) (comment user : String) :
    SessionStore × Ctx × Except Err (List Key) :=
  match c.dataset with
  | none => (st, c, .error .NoDataset)
  | some r =>
    let (d', notes) := (getDsOf st r).addComment user comment
    (st.modifyDs r.1 r.2 fun _ => d', c, .ok notes)

/-- Embeds `DataVault.get_comments` (setting 201): read comments from the comment
cursor, advance it, and re-register the context as a streaming comment
subscriber at the new offset. -/
def get_comments (st : SessionStore) (c : Ctx) (key : Key)
    (limit : Option Nat) (startOver : Bool) :
    SessionStore × Ctx × Except Err (List (String × String)) :=
  match c.dataset with
  | none => (st, c, .error .NoDataset)
  | some r =>
    let d := getDsOf st r
    let pos := if startOver then 0 else c.commentpos
    let (comments, pos') := d.getCommentsAt limit pos
    let c' := { c with commentpos := pos' }
    let st := st.modifyDs r.1 r.2 fun d =>
      { d with comment_listeners := setListener d.comment_listeners key pos' }
    (st, c', .ok comments)

end DataVault

/-! ## Concrete fixtures (used by the witness theorems) -/

/-- A root session whose listener set holds context key 7. -/
def wRoot : Session :=
  { path := [""], listeners := {7}, datasets := [], counter := 1 }

/-- A small dataset with one row, one parameter, one comment and context
key 9 registered in all three listener structures. -/
def wDs : Dataset :=
  { name := "1 - test", independents := [("t", "s")],
    dependents := [("y", "sig", "V")], rows := [[0, 1]],
    parameters := [("p", 3)], comments := [("u", "hello")],
    listeners := [(9, 0)], param_listeners := {9},
    comment_listeners := [(9, 0)] }

/-- A root session owning `wDs`. -/
def wRootD : Session :=
  { path := [""], listeners := {7}, datasets := [wDs], counter := 2 }

/-- A store holding only the empty root session. -/
def wStore : SessionStore := ⟨[wRoot]⟩

/-- A store holding the root session with dataset `wDs`. -/
def wStoreD : SessionStore := ⟨[wRootD]⟩

/-- A fresh context sitting at the root. -/
def wCtx : Ctx :=
  { path := [""], sessionPath := [""], dataset := none,
    filepos := 0, commentpos := 0, writing := false }

/-- A context with `wDs` selected for writing. -/
def wCtxW : Ctx := { wCtx with dataset := some ([""], "1 - test"), writing := true }

/-- A context with `wDs` selected for reading. -/
def wCtxR : Ctx := { wCtx with dataset := some ([""], "1 - test"), writing := false }

/-- The dataset `wDs` after context 9 expires: all listener structures emptied. -/
def wDsExpired : Dataset :=
  { wDs with listeners := [], param_listeners := ∅, comment_listeners := [] }

/-- The session `wRootD` after context 9 expires. -/
def wExpired : Session := { wRootD with datasets := [wDsExpired] }

/-- The dataset created by the witness `new` call, with one row appended. -/
def wDsScan : Dataset :=
  { freshDataset "2 - scan" [("t", "s")] [("y", "sig", "V")] with rows := [[5, 6]] }

/-! ## Groundwork lemmas on the session store -/

namespace SessionStore

lemma exists_iff {st : SessionStore} {p : DirPath} :
    st.exists_ p = true ↔ ∃ s ∈ st.sessions, s.path = p := by
  simp [exists_, List.any_eq_true]

lemma findSession_path {st : SessionStore} {p : DirPath} {s : Session}
    (h : st.findSession p = some s) : s.path = p := by
  have := List.find?_some h
  simpa using this

lemma findSession_mem {st : SessionStore} {p : DirPath} {s : Session}
    (h : st.findSession p = some s) : s ∈ st.sessions :=
  List.mem_of_find?_eq_some h

lemma findSession_isSome {st : SessionStore} {p : DirPath}
    (h : st.exists_ p = true) : (st.findSession p).isSome := by
  rcases exists_iff.1 h with ⟨s, hs, hp⟩
  simp only [findSession, List.find?_isSome]
  exact ⟨s, hs, by simp [hp]⟩

lemma listenersAt_get1 (st : SessionStore) (p q : DirPath) :
    (st.get1 p).listenersAt q = st.listenersAt q := by
  unfold get1
  split
  · rfl
  · unfold listenersAt findSession
    simp only [List.find?_append]
    cases h : st.sessions.find? (fun s => s.path == q) with
    | some s => simp [h]
    | none =>
      by_cases hpq : p = q
      · subst hpq
        simp [h, freshSession]
      · simp [h, freshSession, hpq]

lemma listenersAt_foldl_get1 (l : List DirPath) (st : SessionStore)
    (q : DirPath) : (l.foldl get1 st).listenersAt q = st.listenersAt q := by
  induction l generalizing st with
  | nil => rfl
  | cons p l ih => rw [List.foldl_cons, ih, listenersAt_get1]

lemma listenersAt_get (st : SessionStore) (p q : DirPath) :
    (st.get p).listenersAt q = st.listenersAt q :=
  listenersAt_foldl_get1 _ _ _

lemma exists_get1_self (st : SessionStore) (p : DirPath) :
    (st.get1 p).exists_ p = true := by
  unfold get1
  split
  · assumption
  · simp [exists_, freshSession]

lemma exists_get1_mono {st : SessionStore} {q : DirPath} (p : DirPath)
    (h : st.exists_ q = true) : (st.get1 p).exists_ q = true := by
  unfold get1
  split
  · exact h
  · rcases exists_iff.1 h with ⟨s, hs, hp⟩
    exact exists_iff.2 ⟨s, by simp [hs], hp⟩

lemma exists_foldl_get1_mono (l : List DirPath) {st : SessionStore}
    {q : DirPath} (h : st.exists_ q = true) :
    (l.foldl get1 st).exists_ q = true := by
  induction l generalizing st with
  | nil => exact h
  | cons p l ih => exact ih (exists_get1_mono p h)

lemma exists_get_mono {st : SessionStore} {q : DirPath} (p : DirPath)
    (h : st.exists_ q = true) : (st.get p).exists_ q = true :=
  exists_foldl_get1_mono _ h

lemma exists_get_self (st : SessionStore) {p : DirPath} (hp : p ≠ []) :
    (st.get p).exists_ p = true := by
  unfold get ancestorPaths
  cases p with
  | nil => exact absurd rfl hp
  | cons a l =>
    rw [List.length_cons, List.range_succ, List.map_append, List.foldl_append]
    simp only [List.map_cons, List.map_nil, List.foldl_cons, List.foldl_nil]
    have ht : (a :: l).take (l.length + 1) = a :: l := by
      have : (a :: l).length = l.length + 1 := List.length_cons a l
      rw [← this, List.take_length]
    rw [ht]
    exact exists_get1_self _ _

lemma mem_get1 {st : SessionStore} {p : DirPath} {s : Session}
    (h : s ∈ (st.get1 p).sessions) : s ∈ st.sessions ∨ s.listeners = ∅ := by
  unfold get1 at h
  split at h
  · exact .inl h
  · rcases List.mem_append.1 h with h | h
    · exact .inl h
    · right
      simp only [List.mem_singleton] at h
      subst h
      rfl

lemma mem_foldl_get1 (l : List DirPath) {st : SessionStore} {s : Session}
    (h : s ∈ (l.foldl get1 st).sessions) :
    s ∈ st.sessions ∨ s.listeners = ∅ := by
  induction l generalizing st with
  | nil => exact .inl h
  | cons p l ih =>
    rw [List.foldl_cons] at h
    rcases ih h with h' | h'
    · exact mem_get1 h'
    · exact .inr h'

lemma mem_get {st : SessionStore} {p : DirPath} {s : Session}
    (h : s ∈ (st.get p).sessions) : s ∈ st.sessions ∨ s.listeners = ∅ :=
  mem_foldl_get1 _ h

lemma findSession_modifySession (st : SessionStore) (p q : DirPath)
    (f : Session → Session) (hf : ∀ s, (f s).path = s.path) :
    (st.modifySession p f).findSession q
      = (st.findSession q).map fun s => if s.path = p then f s else s := by
  unfold modifySession findSession
  simp only [List.find?_map]
  have hpred : ((fun s : Session => s.path == q) ∘
      fun s => if s.path = p then f s else s) = fun s : Session => s.path == q := by
    funext s
    by_cases h : s.path = p <;> simp [h, hf]
  rw [hpred]

lemma listenersAt_modifySession_ne (st : SessionStore) {p q : DirPath}
    (f : Session → Session) (hf : ∀ s, (f s).path = s.path) (hqp : q ≠ p) :
    (st.modifySession p f).listenersAt q = st.listenersAt q := by
  unfold listenersAt
  rw [findSession_modifySession st p q f hf]
  cases h : st.findSession q with
  | none => rfl
  | some s =>
    have : s.path = q := findSession_path h
    simp [this, hqp]

lemma listenersAt_modifySession_self {st : SessionStore} {p : DirPath}
    {s : Session} (f : Session → Session) (hf : ∀ s, (f s).path = s.path)
    (h : st.findSession p = some s) :
    (st.modifySession p f).listenersAt p = (f s).listeners := by
  unfold listenersAt
  rw [findSession_modifySession st p p f hf, h]
  have : s.path = p := findSession_path h
  simp [this]

lemma mem_modifySession {st : SessionStore} {p : DirPath}
    {f : Session → Session} {s' : Session}
    (h : s' ∈ (st.modifySession p f).sessions) :
    ∃ s ∈ st.sessions, s' = if s.path = p then f s else s := by
  unfold modifySession at h
  rcases List.mem_map.1 h with ⟨s, hs, he⟩
  exact ⟨s, hs, he.symm⟩

lemma exists_modifySession (st : SessionStore) (p q : DirPath)
    (f : Session → Session) (hf : ∀ s, (f s).path = s.path) :
    (st.modifySession p f).exists_ q = st.exists_ q := by
  unfold modifySession exists_
  rw [List.any_map]
  congr 1
  funext s
  by_cases h : s.path = p <;> simp [h, hf]

lemma listenersAt_eq_of_findSession {st : SessionStore} {p : DirPath}
    {s : Session} (h : st.findSession p = some s) :
    st.listenersAt p = s.listeners := by
  unfold listenersAt
  rw [h]
  rfl

lemma listenersAt_eq_empty_of_none {st : SessionStore} {p : DirPath}
    (h : st.findSession p = none) : st.listenersAt p = ∅ := by
  unfold listenersAt
  rw [h]
  rfl

end SessionStore

/-- The context key is subscribed to exactly the session at path `p`: it is
in that session's listener set and in no other session's listener set. -/
def subscribedExactly (st : SessionStore) (key : Key) (p : DirPath) : Prop :=
  key ∈ st.listenersAt p ∧ ∀ s ∈ st.sessions, s.path ≠ p → key ∉ s.listeners

instance subscribedExactly.dec (st : SessionStore) (key : Key) (p : DirPath) :
    Decidable (subscribedExactly st key p) :=
  inferInstanceAs (Decidable (_ ∧ _))

namespace DataVault

open SessionStore

lemma cdSeg_ne_nil (temp : DirPath) (seg : String) : cdSeg temp seg ≠ [] := by
  unfold cdSeg
  split <;> simp

lemma cdResolve_listenersAt (segs : List String) (st : SessionStore)
    (temp : DirPath) (create : Bool) (q : DirPath) :
    ((cdResolve st temp segs create).1).listenersAt q = st.listenersAt q := by
  induction segs generalizing st temp with
  | nil => rfl
  | cons seg rest ih =>
    simp only [cdResolve]
    split
    · rfl
    · rw [ih, listenersAt_get]

lemma cdResolve_mem (segs : List String) (st : SessionStore) (temp : DirPath)
    (create : Bool) {s : Session}
    (h : s ∈ ((cdResolve st temp segs create).1).sessions) :
    s ∈ st.sessions ∨ s.listeners = ∅ := by
  induction segs generalizing st temp with
  | nil => exact .inl h
  | cons seg rest ih =>
    simp only [cdResolve] at h
    split at h
    · exact .inl h
    · rcases ih _ _ h with h' | h'
      · exact mem_get h'
      · exact .inr h'

lemma cdResolve_exists_mono (segs : List String) (st : SessionStore)
    (temp : DirPath) (create : Bool) {q : DirPath}
    (h : st.exists_ q = true) :
    ((cdResolve st temp segs create).1).exists_ q = true := by
  induction segs generalizing st temp with
  | nil => exact h
  | cons seg rest ih =>
    simp only [cdResolve]
    split
    · exact h
    · exact ih _ _ (exists_get_mono _ h)

lemma cdResolve_ok_ne_nil (segs : List String) (st : SessionStore)
    (temp : DirPath) (create : Bool) {t' : DirPath}
    (h : (cdResolve st temp segs create).2 = .ok t') :
    t' = temp ∨ t' ≠ [] := by
  induction segs generalizing st temp with
  | nil =>
    simp only [cdResolve] at h
    exact .inl (Except.ok.inj h).symm
  | cons seg rest ih =>
    simp only [cdResolve] at h
    split at h
    · simp at h
    · right
      rcases ih _ _ h with h' | h'
      · rw [h']
        exact cdSeg_ne_nil temp seg
      · exact h'

lemma cdResolve_subscribed (segs : List String) (st : SessionStore)
    (temp : DirPath) (create : Bool) {key : Key} {p : DirPath}
    (h : subscribedExactly st key p) :
    subscribedExactly (cdResolve st temp segs create).1 key p := by
  constructor
  · rw [cdResolve_listenersAt]
    exact h.1
  · intro s hs hne
    rcases cdResolve_mem segs st temp create hs with h' | h'
    · exact h.2 s h' hne
    · rw [h']
      exact Finset.not_mem_empty key

lemma cdFinish_path_eq (st : SessionStore) (c : Ctx) (key : Key)
    (temp : DirPath) :
    (cdFinish st c key temp).2.1.path = temp
    ∧ (cdFinish st c key temp).2.2 = .ok temp := by
  by_cases hq : c.path = temp
  · simp only [cdFinish, if_pos hq]
    exact ⟨by simp [hq], by simp [hq]⟩
  · simp only [cdFinish, if_neg hq]
    exact ⟨by trivial, by trivial⟩

lemma cdFinish_self (st : SessionStore) (c : Ctx) (key : Key) (temp : DirPath)
    (h : (cdFinish st c key temp).2.2 = .ok c.path) :
    (cdFinish st c key temp).1 = st ∧ (cdFinish st c key temp).2.1 = c := by
  by_cases hq : c.path = temp
  · simp only [cdFinish, if_pos hq]
    exact ⟨by trivial, by trivial⟩
  · simp only [cdFinish, if_neg hq] at h
    exact absurd (Except.ok.inj h).symm hq

lemma cdFinish_subscribed (st : SessionStore) (c : Ctx) (key : Key)
    (temp : DirPath) (hpc : c.sessionPath = c.path)
    (hinv : subscribedExactly st key c.path)
    (htemp : temp = c.path ∨ temp ≠ []) :
    subscribedExactly (cdFinish st c key temp).1 key
        ((cdFinish st c key temp).2.1).sessionPath
    ∧ ((cdFinish st c key temp).2.1).sessionPath
        = ((cdFinish st c key temp).2.1).path := by
  by_cases hq : c.path = temp
  · simp only [cdFinish, if_pos hq]
    refine ⟨?_, hpc⟩
    rw [hpc]
    exact hinv
  · have htemp' : temp ≠ [] := by
      rcases htemp with h | h
      · exact absurd h.symm hq
      · exact h
    simp only [cdFinish, if_neg hq]
    set st1 := st.modifySession c.sessionPath
      (fun s => { s with listeners := s.listeners.erase key }) with hst1
    set st2 := st1.get temp with hst2
    have hex : st2.exists_ temp = true := exists_get_self st1 htemp'
    obtain ⟨s1, hs1⟩ : ∃ s1, st2.findSession temp = some s1 := by
      rcases Option.isSome_iff_exists.1 (findSession_isSome hex) with ⟨s1, h1⟩
      exact ⟨s1, h1⟩
    refine ⟨⟨?_, ?_⟩, by trivial⟩
    · rw [listenersAt_modifySession_self
        (fun s => { s with listeners := insert key s.listeners })
        (fun _ => rfl) hs1]
      exact Finset.mem_insert_self key _
    · intro s' hs' hne'
      rcases mem_modifySession hs' with ⟨s2, hs2, he2⟩
      by_cases h2 : s2.path = temp
      · rw [he2, if_pos h2] at hne'
        exact absurd h2 hne'
      · rw [he2, if_neg h2]
        rcases mem_get hs2 with h3 | h3
        · rcases mem_modifySession h3 with ⟨s3, hs3, he3⟩
          by_cases h4 : s3.path = c.sessionPath
          · rw [he3, if_pos h4]
            exact Finset.not_mem_erase key _
          · rw [he3, if_neg h4]
            exact hinv.2 s3 hs3 (by rw [← hpc]; exact h4)
        · rw [h3]
          exact Finset.not_mem_empty key

/-- Claim **C1**: after every `cd` that succeeds, the context's key is subscribed
to exactly the one session recorded in the context (never neither, never
both), the recorded session reference matching the recorded path; and a
`cd` that resolves to the context's current path leaves every session's
listener set unchanged. -/
theorem cd_listener_migration (st : SessionStore) (c : Ctx) (key : Key)
    (arg : CdArg) (create : Bool)
    (hpc : c.sessionPath = c.path)
    (hinv : subscribedExactly st key c.path) :
    (∀ p, (cd st c key arg create).2.2 = .ok p →
        subscribedExactly (cd st c key arg create).1 key
          ((cd st c key arg create).2.1).sessionPath
        ∧ ((cd st c key arg create).2.1).sessionPath
            = ((cd st c key arg create).2.1).path)
    ∧ ((cd st c key arg create).2.2 = .ok c.path →
        ∀ q, ((cd st c key arg create).1).listenersAt q = st.listenersAt q) := by
  cases arg with
  | current =>
    refine ⟨fun p _ => ⟨?_, hpc⟩, fun _ q => rfl⟩
    show subscribedExactly st key c.sessionPath
    rw [hpc]
    exact hinv
  | up n =>
    simp only [cd]
    split
    · have htemp :
          (if (c.path.take (c.path.length - n)).length = 0 then [""]
            else c.path.take (c.path.length - n)) = c.path
          ∨ (if (c.path.take (c.path.length - n)).length = 0 then [""]
              else c.path.take (c.path.length - n)) ≠ [] := by
        right
        split
        · simp
        · next hlen =>
            intro hnil
            exact hlen (by rw [hnil]; rfl)
      have h := cdFinish_subscribed st c key _ hpc hinv htemp
      refine ⟨fun p _ => ⟨h.1, h.2⟩, fun hok q => ?_⟩
      rw [(cdFinish_self st c key _ hok).1]
    · have h := cdFinish_subscribed st c key c.path hpc hinv (.inl rfl)
      refine ⟨fun p _ => ⟨h.1, h.2⟩, fun hok q => ?_⟩
      rw [(cdFinish_self st c key _ hok).1]
  | segs segs =>
    cases hres : cdResolve st c.path segs create with
    | mk st1 r =>
      cases r with
      | error e =>
        simp only [cd, hres]
        exact ⟨fun p h => by simp at h, fun h => by simp at h⟩
      | ok temp =>
        simp only [cd, hres]
        have hinv1 : subscribedExactly st1 key c.path := by
          have := cdResolve_subscribed segs st c.path create hinv
          rwa [hres] at this
        have htemp : temp = c.path ∨ temp ≠ [] :=
          cdResolve_ok_ne_nil segs st c.path create (by rw [hres])
        have h := cdFinish_subscribed st1 c key temp hpc hinv1 htemp
        refine ⟨fun p _ => ⟨h.1, h.2⟩, fun hok q => ?_⟩
        rw [(cdFinish_self st1 c key temp hok).1]
        have := cdResolve_listenersAt segs st c.path create q
        rwa [hres] at this

/-- Claim **C10**: a `cd` that fails leaves the context's recorded path and
session reference and every session's listener set exactly as they were
before the call. -/
theorem cd_error_no_mutation (st : SessionStore) (c : Ctx) (key : Key)
    (arg : CdArg) (create : Bool) (e : Err)
    (h : (cd st c key arg create).2.2 = .error e) :
    (cd st c key arg create).2.1 = c
    ∧ ∀ q, ((cd st c key arg create).1).listenersAt q = st.listenersAt q := by
  cases arg with
  | current => simp [cd] at h
  | up n =>
    exfalso
    simp only [cd] at h
    split at h
    all_goals
      rw [(cdFinish_path_eq _ _ _ _).2] at h
      exact absurd h (by simp)
  | segs segs =>
    cases hres : cdResolve st c.path segs create with
    | mk st1 r =>
      cases r with
      | ok temp =>
        exfalso
        simp only [cd, hres] at h
        rw [(cdFinish_path_eq _ _ _ _).2] at h
        exact absurd h (by simp)
      | error e' =>
        simp only [cd, hres]
        refine ⟨by trivial, fun q => ?_⟩
        have := cdResolve_listenersAt segs st c.path create q
        rwa [hres] at this

end DataVault

/-! ## Numeric `cd` and the create flag -/

namespace DataVault

open SessionStore

lemma cdSeg_empty (temp : DirPath) : cdSeg temp "" = [""] := by
  simp [cdSeg]

/-- Claim **C4**: a numeric `cd` argument `n > 0` removes the last `n` segments
of the current path, clamped to the root path `[""]` when `n` is at least
the number of segments; `n = 0` changes nothing; and inside a segment
sequence an empty segment resets the working path to the root before the
remaining segments are applied. -/
theorem cd_numeric_and_reset (st : SessionStore) (c : Ctx) (key : Key)
    (create : Bool) :
    (∀ n, 0 < n →
        (cd st c key (.up n) create).2.1.path
          = (if c.path.length ≤ n then [""]
              else c.path.take (c.path.length - n))
        ∧ (cd st c key (.up n) create).2.2
          = .ok (if c.path.length ≤ n then [""]
              else c.path.take (c.path.length - n)))
    ∧ ((cd st c key (.up 0) create).1 = st
        ∧ (cd st c key (.up 0) create).2.1 = c
        ∧ (cd st c key (.up 0) create).2.2 = .ok c.path)
    ∧ (∀ st' temp rest cr, st'.exists_ [""] = true →
        cdResolve st' temp ("" :: rest) cr
          = cdResolve (st'.get [""]) [""] rest cr) := by
  refine ⟨fun n hn => ?_, ?_, fun st' temp rest cr hex => ?_⟩
  · simp only [cd, if_pos hn]
    have hiff : (c.path.take (c.path.length - n)).length = 0
        ↔ c.path.length ≤ n := by
      rw [List.length_take]
      omega
    rw [← if_congr hiff rfl rfl]
    exact ⟨(cdFinish_path_eq st c key _).1, (cdFinish_path_eq st c key _).2⟩
  · simp only [cd, if_neg (lt_irrefl 0)]
    rw [cdFinish, if_pos rfl]
    exact ⟨rfl, rfl, rfl⟩
  · simp only [cdResolve, cdSeg_empty, hex]
    simp

lemma foldl_get1_eq_self {st : SessionStore} {l : List DirPath}
    (h : ∀ q ∈ l, st.exists_ q = true) : l.foldl get1 st = st := by
  induction l with
  | nil => rfl
  | cons p l ih =>
    rw [List.foldl_cons]
    have h1 : st.get1 p = st := by
      unfold get1
      rw [if_pos (h p (List.mem_cons_self p l))]
    rw [h1]
    exact ih fun q hq => h q (List.mem_cons_of_mem _ hq)

lemma get_eq_self_of_closed {st : SessionStore} (hcl : st.ancestorClosed)
    {p : DirPath} (hex : st.exists_ p = true) : st.get p = st := by
  rcases exists_iff.1 hex with ⟨s, hs, hp⟩
  unfold SessionStore.get
  apply foldl_get1_eq_self
  intro q hq
  unfold SessionStore.ancestorPaths at hq
  rcases List.mem_map.1 hq with ⟨i, hi, rfl⟩
  have := hcl s hs i (by rw [hp]; exact List.mem_range.1 hi)
  rwa [hp] at this

lemma cdResolve_false_of_closed (segs : List String) (st : SessionStore)
    (temp : DirPath) (hcl : st.ancestorClosed) :
    (cdResolve st temp segs false).1 = st
    ∧ ((∃ p ∈ resolvedPaths temp segs, st.exists_ p = false) →
        ∃ p', (cdResolve st temp segs false).2
            = .error (.DirectoryNotFound p')) := by
  induction segs generalizing temp with
  | nil =>
    refine ⟨rfl, ?_⟩
    rintro ⟨p, hp, hnex⟩
    simp [resolvedPaths] at hp
  | cons seg rest ih =>
    simp only [cdResolve]
    by_cases hex : st.exists_ (cdSeg temp seg) = true
    · rw [if_neg (by simp [hex])]
      rw [get_eq_self_of_closed hcl hex]
      refine ⟨(ih _).1, ?_⟩
      rintro ⟨p, hp, hnex⟩
      rcases List.mem_cons.1 hp with rfl | hp'
      · rw [hex] at hnex
        cases hnex
      · exact (ih _).2 ⟨p, hp', hnex⟩
    · rw [if_pos (by simp [Bool.not_eq_true] at hex; simp [hex])]
      exact ⟨rfl, fun _ => ⟨cdSeg temp seg, rfl⟩⟩

lemma cdResolve_true_isOk (segs : List String) (st : SessionStore)
    (temp : DirPath) : ((cdResolve st temp segs true).2).isOk = true := by
  induction segs generalizing st temp with
  | nil => rfl
  | cons seg rest ih =>
    simp only [cdResolve]
    split
    · next hcond => simp at hcond
    · exact ih _ _

lemma cdResolve_true_exists (segs : List String) (st : SessionStore)
    (temp : DirPath) :
    ∀ p ∈ resolvedPaths temp segs,
      ((cdResolve st temp segs true).1).exists_ p = true := by
  induction segs generalizing st temp with
  | nil => simp [resolvedPaths]
  | cons seg rest ih =>
    intro p hp
    simp only [cdResolve]
    split
    · next hcond => simp at hcond
    · rcases List.mem_cons.1 hp with rfl | hp'
      · exact cdResolve_exists_mono rest _ _ _
          (exists_get_self st (cdSeg_ne_nil temp seg))
      · exact ih _ _ p hp'

lemma cdFinish_exists_mono (st : SessionStore) (c : Ctx) (key : Key)
    (temp : DirPath) {q : DirPath} (h : st.exists_ q = true) :
    ((cdFinish st c key temp).1).exists_ q = true := by
  by_cases hq : c.path = temp
  · simp only [cdFinish, if_pos hq]
    exact h
  · simp only [cdFinish, if_neg hq]
    rw [exists_modifySession _ temp q
      (fun s => { s with listeners := insert key s.listeners }) fun _ => rfl]
    apply exists_get_mono
    rw [exists_modifySession _ c.sessionPath q
      (fun s => { s with listeners := s.listeners.erase key }) fun _ => rfl]
    exact h

/-- Claim **C5**: with the create flag false, `cd` fails with a
directory-not-found error whenever some resolved path does not exist; with
the create flag true, `cd` succeeds and every resolved path exists in the
store afterwards. -/
theorem cd_create_flag (st : SessionStore) (c : Ctx) (key : Key)
    (segs : List String) (hcl : st.ancestorClosed) :
    ((∃ p ∈ resolvedPaths c.path segs, st.exists_ p = false) →
        ∃ p', (cd st c key (.segs segs) false).2.2
            = .error (.DirectoryNotFound p'))
    ∧ ((cd st c key (.segs segs) true).2.2.isOk = true
        ∧ ∀ p ∈ resolvedPaths c.path segs,
            ((cd st c key (.segs segs) true).1).exists_ p = true) := by
  constructor
  · intro hsome
    rcases (cdResolve_false_of_closed segs st c.path hcl).2 hsome with ⟨p', hp'⟩
    cases hres : cdResolve st c.path segs false with
    | mk st1 r =>
      rw [hres] at hp'
      simp only at hp'
      rw [hp'] at hres
      simp only [cd, hres]
      exact ⟨p', rfl⟩
  · cases hres : cdResolve st c.path segs true with
    | mk st1 r =>
      have hok : r.isOk = true := by
        have := cdResolve_true_isOk segs st c.path
        rwa [hres] at this
      cases r with
      | error e => simp [Except.isOk, Except.toBool] at hok
      | ok temp =>
        simp only [cd, hres]
        refine ⟨?_, fun p hp => ?_⟩
        · rw [(cdFinish_path_eq st1 c key temp).2]
          rfl
        · apply cdFinish_exists_mono
          have := cdResolve_true_exists segs st c.path p hp
          rwa [hres] at this

/-! ## Directory creation -/

/-- Claim **C8**: `mkdir` fails with an invalid-argument error on the empty name,
fails with an already-exists error when the child path already exists, and
otherwise creates the session and returns its path while the context's
current directory stays selected. -/
theorem mkdir_semantics (st : SessionStore) (c : Ctx) (name : String) :
    (name = "" → DataVault.mkdir st c name = (st, c, .error .EmptyName))
    ∧ (name ≠ "" → st.exists_ (c.path ++ [name]) = true →
        DataVault.mkdir st c name
          = (st, c, .error (.DirectoryExists (c.path ++ [name]))))
    ∧ (name ≠ "" → st.exists_ (c.path ++ [name]) = false →
        (DataVault.mkdir st c name).2.1 = c
        ∧ (DataVault.mkdir st c name).2.2 = .ok (c.path ++ [name])
        ∧ ((DataVault.mkdir st c name).1).exists_ (c.path ++ [name]) = true) := by
  refine ⟨fun h => ?_, fun h hex => ?_, fun h hex => ?_⟩
  · rw [DataVault.mkdir, if_pos h]
  · rw [DataVault.mkdir, if_neg h]
    simp only [hex, if_pos]
  · rw [DataVault.mkdir, if_neg h]
    rw [if_neg (by simp [hex])]
    exact ⟨rfl, rfl, SessionStore.exists_get_self st (by simp)⟩

/-- Claim **C9**: after a successful `mkdir name`, a `cd [name]` with the create
flag false from the same directory succeeds with the created path (it
never fails with not-found). -/
theorem mkdir_then_cd (st : SessionStore) (c : Ctx) (name : String)
    (key : Key) (h1 : name ≠ "")
    (h2 : st.exists_ (c.path ++ [name]) = false) :
    (DataVault.cd (DataVault.mkdir st c name).1
        ((DataVault.mkdir st c name).2.1) key (.segs [name]) false).2.2
      = .ok (c.path ++ [name]) := by
  rw [DataVault.mkdir, if_neg h1, if_neg (by simp [h2])]
  have hseg : DataVault.cdSeg c.path name = c.path ++ [name] := by
    simp [DataVault.cdSeg, h1]
  have hex : (st.get (c.path ++ [name])).exists_ (c.path ++ [name]) = true :=
    SessionStore.exists_get_self st (by simp)
  have hres : DataVault.cdResolve (st.get (c.path ++ [name])) c.path [name] false
      = ((st.get (c.path ++ [name])).get (c.path ++ [name]),
          .ok (c.path ++ [name])) := by
    simp only [DataVault.cdResolve, hseg, hex]
    simp
  simp only [DataVault.cd, hres]
  exact (DataVault.cdFinish_path_eq _ _ _ _).2

/-! ## Context expiry -/

/-- Claim **C2**: after `expireContext`, the key is absent from every session's
listener set and from every dataset's data, parameter and comment listener
structures, and a subsequent append to any dataset notifies no such key. -/
theorem expireContext_removes_listeners (st : SessionStore) (key : Key) :
    ∀ s ∈ (DataVault.expireContext st key).sessions,
      key ∉ s.listeners
      ∧ ∀ d ∈ s.datasets,
          (∀ e ∈ d.listeners, ¬ e.1 = key)
          ∧ key ∉ d.param_listeners
          ∧ (∀ e ∈ d.comment_listeners, ¬ e.1 = key)
          ∧ ∀ data d' notes, d.addData data = .ok (d', notes) → key ∉ notes := by
  intro s hs
  simp only [DataVault.expireContext, List.mem_map] at hs
  rcases hs with ⟨s0, _, rfl⟩
  refine ⟨Finset.not_mem_erase key _, ?_⟩
  intro d hd
  simp only [List.mem_map] at hd
  rcases hd with ⟨d0, _, rfl⟩
  refine ⟨?_, Finset.not_mem_erase key _, ?_, ?_⟩
  · intro e he
    simpa using (List.mem_filter.1 he).2
  · intro e he
    simpa using (List.mem_filter.1 he).2
  · intro data d' notes hadd hkey
    simp only [Dataset.addData] at hadd
    split at hadd
    · injection hadd with hpair
      injection hpair with hd' hnotes
      rw [← hnotes] at hkey
      rcases List.mem_map.1 hkey with ⟨e, he, hek⟩
      have he1 := (List.mem_filter.1 he).1
      have hne : ¬ e.1 = key := by simpa using (List.mem_filter.1 he1).2
      exact hne hek
    · cases hadd

/-! ## The no-dataset-open guard -/

/-- Claim **C6**: every data, parameter and comment operation raises the
no-dataset-open error and leaves the store and the context unchanged when
the invoking context has no dataset selected. -/
theorem no_dataset_guard (st : SessionStore) (c : Ctx) (key : Key)
    (data : List (List Int)) (limit : Option Nat) (so : Bool)
    (name user comment : String) (value : Int) (cs : Bool)
    (params : List (String × Int)) (hc : c.dataset = none) :
    DataVault.add st c data = (st, c, .error .NoDataset)
    ∧ DataVault.get st c key limit so = (st, c, .error .NoDataset)
    ∧ DataVault.variablesOf st c = (st, c, .error .NoDataset)
    ∧ DataVault.parameters st c key = (st, c, .error .NoDataset)
    ∧ DataVault.add_parameter st c name value = (st, c, .error .NoDataset)
    ∧ DataVault.add_parameters st c params = (st, c, .error .NoDataset)
    ∧ DataVault.get_name st c = (st, c, .error .NoDataset)
    ∧ DataVault.get_parameter st c name cs = (st, c, .error .NoDataset)
    ∧ DataVault.get_parameters st c key = (st, c, .error .NoDataset)
    ∧ DataVault.add_comment st c comment user = (st, c, .error .NoDataset)
    ∧ DataVault.get_comments st c key limit so = (st, c, .error .NoDataset) := by
  refine ⟨?_, ?_, ?_, ?_, ?_, ?_, ?_, ?_, ?_, ?_, ?_⟩ <;>
    simp [DataVault.add, DataVault.get, DataVault.variablesOf,
      DataVault.parameters, DataVault.add_parameter, DataVault.add_parameters,
      DataVault.get_name, DataVault.get_parameter, DataVault.get_parameters,
      DataVault.add_comment, DataVault.get_comments, hc]

end DataVault

/-! ## Dataset-level groundwork -/

namespace SessionStore

lemma findDs_modifyDs (st : SessionStore) (p : DirPath) (nm : String)
    (f : Dataset → Dataset) (hf : ∀ d, d.name = nm → (f d).name = nm) :
    (st.modifyDs p nm f).findDs p nm
      = (st.findDs p nm).map fun d => if d.name = nm then f d else d := by
  unfold modifyDs findDs
  rw [findSession_modifySession st p p
    (fun s => { s with datasets := s.datasets.map fun d => if d.name = nm then f d else d })
    fun _ => rfl]
  cases h : st.findSession p with
  | none => rfl
  | some s =>
    have hp : s.path = p := findSession_path h
    simp only [Option.map_some', hp, Option.some_bind, eq_self_iff_true, if_true]
    rw [List.find?_map]
    have hpred : ((fun d : Dataset => d.name == nm) ∘
        fun d => if d.name = nm then f d else d)
        = fun d : Dataset => d.name == nm := by
      funext d
      by_cases hd : d.name = nm
      · simp [hd, hf d hd]
      · simp [hd]
    rw [hpred]

lemma findDs_isSome_of_mem {st : SessionStore} {p : DirPath} {s : Session}
    {d : Dataset} (hs : st.findSession p = some s) (hd : d ∈ s.datasets) :
    ∃ d0, st.findDs p d.name = some d0 ∧ d0.name = d.name := by
  unfold findDs
  rw [hs]
  simp only [Option.some_bind]
  have : ∃ x, s.datasets.find? (fun d0 => d0.name == d.name) = some x := by
    rw [← Option.isSome_iff_exists, List.find?_isSome]
    exact ⟨d, hd, by simp⟩
  rcases this with ⟨d0, hd0⟩
  refine ⟨d0, hd0, ?_⟩
  have := List.find?_some hd0
  simpa using this

end SessionStore

lemma lookupOffset_setListener (ls : List (Key × Nat)) (k : Key) (pos : Nat) :
    lookupOffset (setListener ls k pos) k = some pos := by
  induction ls with
  | nil => simp [setListener, lookupOffset]
  | cons e rest ih =>
    by_cases h : e.1 = k
    · simp [setListener, lookupOffset, h]
    · rw [setListener, if_neg h]
      unfold lookupOffset
      rw [List.find?_cons_of_neg _ (by simpa using h)]
      exact ih

namespace Session

lemma openDataset_mem {s : Session} {arg : String ⊕ Nat} {d : Dataset}
    (h : s.openDataset arg = some d) : d ∈ s.datasets := by
  cases arg with
  | inl nm => exact List.mem_of_find?_eq_some h
  | inr i =>
    simp only [Session.openDataset] at h
    split at h
    · cases h
    · exact List.get?_mem h

end Session


lemma addData_fresh (nm : String) (indeps : List (String × String))
    (deps : List (String × String × String)) (data : List (List Int))
    (hdata : data.all (fun r => r.length == indeps.length + deps.length)
      = true) :
    (freshDataset nm indeps deps).addData data
      = .ok ({ freshDataset nm indeps deps with rows := data }, []) := by
  simp only [Dataset.addData, freshDataset]
  rw [if_pos hdata]
  simp

namespace DataVault

open SessionStore

lemma new_findSession (st : SessionStore) (c : Ctx) (name : String)
    (indeps : List (String × String))
    (deps : List (String × String × String)) {s : Session}
    (hs : st.findSession c.sessionPath = some s) :
    ((new st c name indeps deps).1).findSession c.sessionPath
      = some ((s.newDataset (if name = "" then "untitled" else name)
          indeps deps).1)
    ∧ ((new st c name indeps deps).2.1).dataset
      = some (c.sessionPath, toString s.counter ++ " - "
          ++ (if name = "" then "untitled" else name)) := by
  constructor
  · simp only [new]
    rw [findSession_modifySession st c.sessionPath c.sessionPath
      (fun s => (s.newDataset (if name = "" then "untitled" else name)
        indeps deps).1) fun _ => rfl]
    rw [hs]
    simp [findSession_path hs]
  · simp only [new, getSessionOf, hs]
    rfl

/-- Claim **C3**: with a dataset open, `add` raises the read-only error exactly
when the context's writing flag is false; `open` sets the flag to false
(so a following `add` raises read-only) and `new` sets it to true, after
which `add` with rows of the declared arity appends them to the dataset. -/
theorem add_readonly_iff (st : SessionStore) (c : Ctx) (key : Key)
    (data : List (List Int)) (arg : String ⊕ Nat) (name : String)
    (indeps : List (String × String))
    (deps : List (String × String × String)) :
    (∀ r, c.dataset = some r →
        ((DataVault.add st c data).2.2 = .error .ReadOnly
          ↔ c.writing = false))
    ∧ (∀ p nm, (openDs st c key arg).2.2 = .ok (p, nm) →
        ((openDs st c key arg).2.1).writing = false)
    ∧ ((new st c name indeps deps).2.1).writing = true
    ∧ (∀ s nm, st.findSession c.sessionPath = some s →
        ((new st c name indeps deps).2.1).dataset = some (c.sessionPath, nm) →
        (∀ d ∈ s.datasets, ¬ d.name = nm) →
        data.all (fun row => row.length == indeps.length + deps.length) = true →
        (DataVault.add (new st c name indeps deps).1
            ((new st c name indeps deps).2.1) data).2.2 = .ok []
        ∧ ((DataVault.add (new st c name indeps deps).1
            ((new st c name indeps deps).2.1) data).1).findDs c.sessionPath nm
          = some { freshDataset nm indeps deps with rows := data }) := by
  refine ⟨fun r hr => ?_, fun p nm hok => ?_, rfl,
    fun s nm hs hds hfresh hdata => ?_⟩
  · constructor
    · intro herr
      by_contra hw
      rw [Bool.not_eq_false] at hw
      simp only [DataVault.add, hr, hw, Bool.not_true] at herr
      rw [if_neg (by simp)] at herr
      cases had : (DataVault.getDsOf st r).addData data with
      | ok v =>
        rw [had] at herr
        simp at herr
      | error e =>
        rw [had] at herr
        simp only at herr
        have he := Except.error.inj herr
        rw [he] at had
        simp only [Dataset.addData] at had
        split at had
        · exact absurd had (by simp)
        · simp at had
    · intro hw
      simp [DataVault.add, hr, hw]
  · cases hd : (getSessionOf st c).openDataset arg with
    | none => simp [openDs, hd] at hok
    | some ds => simp [openDs, hd]
  · have hnew := new_findSession st c name indeps deps hs
    have hnm : nm = toString s.counter ++ " - "
        ++ (if name = "" then "untitled" else name) := by
      have h2 := hnew.2.symm.trans hds
      exact ((Prod.ext_iff.1 (Option.some.inj h2)).2).symm
    subst hnm
    have hfind1 : ((new st c name indeps deps).1).findDs c.sessionPath
        (toString s.counter ++ " - "
          ++ (if name = "" then "untitled" else name))
        = some (freshDataset (toString s.counter ++ " - "
            ++ (if name = "" then "untitled" else name)) indeps deps) := by
      unfold SessionStore.findDs
      rw [hnew.1]
      simp only [Option.some_bind, Session.newDataset]
      rw [List.find?_append]
      rw [List.find?_eq_none.2 fun d hd => by simpa using hfresh d hd]
      simp [freshDataset]
    have hget : DataVault.getDsOf (new st c name indeps deps).1
        (c.sessionPath, toString s.counter ++ " - "
          ++ (if name = "" then "untitled" else name))
        = freshDataset (toString s.counter ++ " - "
            ++ (if name = "" then "untitled" else name)) indeps deps := by
      simp [DataVault.getDsOf, hfind1]
    have hwr : ((new st c name indeps deps).2.1).writing = true := rfl
    constructor
    · simp only [DataVault.add, hds, Bool.not_true]
      rw [if_neg (by simp [hwr])]
      rw [hget, addData_fresh _ _ _ _ hdata]
    · simp only [DataVault.add, hds, Bool.not_true]
      rw [if_neg (by simp [hwr])]
      rw [hget, addData_fresh _ _ _ _ hdata]
      simp only
      rw [findDs_modifyDs (new st c name indeps deps).1 c.sessionPath
        (toString s.counter ++ " - " ++ (if name = "" then "untitled" else name))
        (fun _ => { freshDataset (toString s.counter ++ " - "
            ++ (if name = "" then "untitled" else name)) indeps deps
          with rows := data })
        fun d hd => rfl]
      rw [hfind1]
      simp [freshDataset]

end DataVault

namespace DataVault

open SessionStore

/-- Claim **C7**: a successful `open` selects the resolved dataset, resets both
the row cursor and the comment cursor to 0, clears the writing flag, and
registers the context's key at offset 0 in both the dataset's data and
comment listener structures. -/
theorem open_registers_streaming (st : SessionStore) (c : Ctx) (key : Key)
    (arg : String ⊕ Nat) (hsess : st.exists_ c.sessionPath = true)
    (hok : ((openDs st c key arg).2.2).isOk = true) :
    ((openDs st c key arg).2.1).writing = false
    ∧ ((openDs st c key arg).2.1).filepos = 0
    ∧ ((openDs st c key arg).2.1).commentpos = 0
    ∧ ∃ nm, ((openDs st c key arg).2.1).dataset = some (c.sessionPath, nm)
        ∧ ∃ d, ((openDs st c key arg).1).findDs c.sessionPath nm = some d
            ∧ lookupOffset d.listeners key = some 0
            ∧ lookupOffset d.comment_listeners key = some 0 := by
  obtain ⟨s, hs⟩ : ∃ s, st.findSession c.sessionPath = some s := by
    rcases Option.isSome_iff_exists.1 (findSession_isSome hsess) with ⟨s, h⟩
    exact ⟨s, h⟩
  have hsget : getSessionOf st c = s := by
    simp [getSessionOf, hs]
  cases hd : (getSessionOf st c).openDataset arg with
  | none => simp [openDs, hd, Except.isOk, Except.toBool] at hok
  | some ds =>
    have hmem : ds ∈ s.datasets := by
      rw [hsget] at hd
      exact Session.openDataset_mem hd
    rcases findDs_isSome_of_mem hs hmem with ⟨d0, hd0, hname⟩
    refine ⟨by simp [openDs, hd], by simp [openDs, hd], by simp [openDs, hd],
      ds.name, by simp [openDs, hd], ?_⟩
    have hflisten : ∀ d : Dataset, d.name = ds.name →
        ({ d with listeners := setListener d.listeners key 0,
                  comment_listeners := setListener d.comment_listeners key 0
         } : Dataset).name = ds.name := fun d h => h
    have hstore : (openDs st c key arg).1
        = st.modifyDs c.sessionPath ds.name fun d =>
            { d with listeners := setListener d.listeners key 0,
                     comment_listeners := setListener d.comment_listeners key 0 } := by
      simp [openDs, hd]
    have hgoal : ((openDs st c key arg).1).findDs c.sessionPath ds.name
        = some { d0 with listeners := setListener d0.listeners key 0,
                         comment_listeners := setListener d0.comment_listeners key 0 } := by
      rw [hstore]
      rw [findDs_modifyDs st c.sessionPath ds.name
        (fun d => { d with listeners := setListener d.listeners key 0,
                           comment_listeners := setListener d.comment_listeners key 0 })
        hflisten]
      rw [hd0]
      simp [hname]
    exact ⟨_, hgoal, lookupOffset_setListener _ _ _,
      lookupOffset_setListener _ _ _⟩

end DataVault

/-! ## Witnesses: the claim theorems applied at concrete inputs -/

/-- Witness for **C1** at a concrete store and context. -/
theorem cd_listener_migration_witness :
    (wCtx.sessionPath = wCtx.path ∧ subscribedExactly wStore 7 wCtx.path)
    ∧ (subscribedExactly (DataVault.cd wStore wCtx 7 CdArg.current false).1 7
        ((DataVault.cd wStore wCtx 7 CdArg.current false).2.1).sessionPath
      ∧ ((DataVault.cd wStore wCtx 7 CdArg.current false).2.1).sessionPath
          = ((DataVault.cd wStore wCtx 7 CdArg.current false).2.1).path)
    ∧ ((DataVault.cd wStore wCtx 7 CdArg.current false).1).listenersAt [""]
        = wStore.listenersAt [""] :=
  ⟨⟨rfl, by decide⟩,
   (DataVault.cd_listener_migration wStore wCtx 7 .current false rfl
     (by decide)).1 wCtx.path rfl,
   (DataVault.cd_listener_migration wStore wCtx 7 .current false rfl
     (by decide)).2 rfl [""]⟩

/-- Witness for **C2** at a concrete store and key. -/
theorem expireContext_removes_listeners_witness :
    (wExpired ∈ (DataVault.expireContext wStoreD 9).sessions
      ∧ wDsExpired ∈ wExpired.datasets)
    ∧ 9 ∉ wExpired.listeners
    ∧ ((∀ e ∈ wDsExpired.listeners, ¬ e.1 = 9)
        ∧ 9 ∉ wDsExpired.param_listeners
        ∧ (∀ e ∈ wDsExpired.comment_listeners, ¬ e.1 = 9)
        ∧ ∀ data d' notes, wDsExpired.addData data = .ok (d', notes) →
            9 ∉ notes) :=
  ⟨⟨by decide, by decide⟩,
   (DataVault.expireContext_removes_listeners wStoreD 9 wExpired (by decide)).1,
   (DataVault.expireContext_removes_listeners wStoreD 9 wExpired (by decide)).2
     wDsExpired (by decide)⟩

/-- Witness for **C3** at a concrete store, contexts and rows. -/
theorem add_readonly_iff_witness :
    (wCtxR.dataset = some ([""], "1 - test")
      ∧ wStoreD.findSession wCtxR.sessionPath = some wRootD
      ∧ ((DataVault.new wStoreD wCtxR "scan" [("t", "s")]
            [("y", "sig", "V")]).2.1).dataset = some ([""], "2 - scan")
      ∧ (∀ d ∈ wRootD.datasets, ¬ d.name = "2 - scan")
      ∧ ([[5, 6]] : List (List Int)).all
          (fun row => row.length == [("t", "s")].length
            + [("y", "sig", "V")].length) = true)
    ∧ ((DataVault.add wStoreD wCtxR [[5, 6]]).2.2 = .error .ReadOnly
        ↔ wCtxR.writing = false)
    ∧ ((DataVault.new wStoreD wCtxR "scan" [("t", "s")]
          [("y", "sig", "V")]).2.1).writing = true
    ∧ ((DataVault.add (DataVault.new wStoreD wCtxR "scan" [("t", "s")]
          [("y", "sig", "V")]).1
        ((DataVault.new wStoreD wCtxR "scan" [("t", "s")]
          [("y", "sig", "V")]).2.1) [[5, 6]]).2.2 = .ok []
      ∧ ((DataVault.add (DataVault.new wStoreD wCtxR "scan" [("t", "s")]
            [("y", "sig", "V")]).1
          ((DataVault.new wStoreD wCtxR "scan" [("t", "s")]
            [("y", "sig", "V")]).2.1) [[5, 6]]).1).findDs [""] "2 - scan"
        = some wDsScan) :=
  ⟨⟨rfl, by decide, by decide, by decide, by decide⟩,
   (DataVault.add_readonly_iff wStoreD wCtxR 9 [[5, 6]] (.inl "1 - test")
     "scan" [("t", "s")] [("y", "sig", "V")]).1 ([""], "1 - test") rfl,
   (DataVault.add_readonly_iff wStoreD wCtxR 9 [[5, 6]] (.inl "1 - test")
     "scan" [("t", "s")] [("y", "sig", "V")]).2.2.1,
   (DataVault.add_readonly_iff wStoreD wCtxR 9 [[5, 6]] (.inl "1 - test")
     "scan" [("t", "s")] [("y", "sig", "V")]).2.2.2 wRootD "2 - scan"
     (by decide) (by decide) (by decide) (by decide)⟩

/-- Witness for **C4** at a concrete store and context. -/
theorem cd_numeric_and_reset_witness :
    ((0 : Nat) < 2 ∧ wStore.exists_ [""] = true)
    ∧ ((DataVault.cd wStore wCtx 7 (.up 2) false).2.1.path
        = (if wCtx.path.length ≤ 2 then [""]
            else wCtx.path.take (wCtx.path.length - 2))
      ∧ (DataVault.cd wStore wCtx 7 (.up 2) false).2.2
        = .ok (if wCtx.path.length ≤ 2 then [""]
            else wCtx.path.take (wCtx.path.length - 2)))
    ∧ DataVault.cdResolve wStore ["x"] ("" :: ["a"]) true
        = DataVault.cdResolve (wStore.get [""]) [""] ["a"] true :=
  ⟨⟨by decide, by decide⟩,
   (DataVault.cd_numeric_and_reset wStore wCtx 7 false).1 2 (by decide),
   (DataVault.cd_numeric_and_reset wStore wCtx 7 false).2.2 wStore ["x"]
     ["a"] true (by decide)⟩

/-- Witness for **C5** at a concrete store and segment sequence. -/
theorem cd_create_flag_witness :
    wStore.ancestorClosed
    ∧ ((∃ p ∈ DataVault.resolvedPaths wCtx.path ["a", "b"],
          wStore.exists_ p = false) →
        ∃ p', (DataVault.cd wStore wCtx 7 (.segs ["a", "b"]) false).2.2
            = .error (.DirectoryNotFound p'))
    ∧ ((DataVault.cd wStore wCtx 7 (.segs ["a", "b"]) true).2.2.isOk = true
        ∧ ∀ p ∈ DataVault.resolvedPaths wCtx.path ["a", "b"],
            ((DataVault.cd wStore wCtx 7 (.segs ["a", "b"]) true).1).exists_ p
              = true) :=
  ⟨by decide,
   (DataVault.cd_create_flag wStore wCtx 7 ["a", "b"] (by decide)).1,
   (DataVault.cd_create_flag wStore wCtx 7 ["a", "b"] (by decide)).2⟩

/-- Witness for **C6** at a concrete store and context. -/
theorem no_dataset_guard_witness :
    wCtx.dataset = none
    ∧ DataVault.add wStore wCtx [[1]] = (wStore, wCtx, .error .NoDataset)
    ∧ DataVault.get wStore wCtx 7 none false = (wStore, wCtx, .error .NoDataset)
    ∧ DataVault.variablesOf wStore wCtx = (wStore, wCtx, .error .NoDataset)
    ∧ DataVault.parameters wStore wCtx 7 = (wStore, wCtx, .error .NoDataset)
    ∧ DataVault.add_parameter wStore wCtx "p" 0 = (wStore, wCtx, .error .NoDataset)
    ∧ DataVault.add_parameters wStore wCtx [("p", 0)]
        = (wStore, wCtx, .error .NoDataset)
    ∧ DataVault.get_name wStore wCtx = (wStore, wCtx, .error .NoDataset)
    ∧ DataVault.get_parameter wStore wCtx "p" true
        = (wStore, wCtx, .error .NoDataset)
    ∧ DataVault.get_parameters wStore wCtx 7 = (wStore, wCtx, .error .NoDataset)
    ∧ DataVault.add_comment wStore wCtx "hi" "me"
        = (wStore, wCtx, .error .NoDataset)
    ∧ DataVault.get_comments wStore wCtx 7 none false
        = (wStore, wCtx, .error .NoDataset) :=
  ⟨rfl, DataVault.no_dataset_guard wStore wCtx 7 [[1]] none false "p" "me"
    "hi" 0 true [("p", 0)] rfl⟩

/-- Witness for **C7** at a concrete store opening `wDs` by name. -/
theorem open_registers_streaming_witness :
    (wStoreD.exists_ wCtx.sessionPath = true
      ∧ ((DataVault.openDs wStoreD wCtx 9 (.inl "1 - test")).2.2).isOk = true)
    ∧ ((DataVault.openDs wStoreD wCtx 9 (.inl "1 - test")).2.1).writing = false
    ∧ ((DataVault.openDs wStoreD wCtx 9 (.inl "1 - test")).2.1).filepos = 0
    ∧ ((DataVault.openDs wStoreD wCtx 9 (.inl "1 - test")).2.1).commentpos = 0
    ∧ ∃ nm, ((DataVault.openDs wStoreD wCtx 9 (.inl "1 - test")).2.1).dataset
          = some (wCtx.sessionPath, nm)
        ∧ ∃ d, ((DataVault.openDs wStoreD wCtx 9 (.inl "1 - test")).1).findDs
              wCtx.sessionPath nm = some d
            ∧ lookupOffset d.listeners 9 = some 0
            ∧ lookupOffset d.comment_listeners 9 = some 0 :=
  ⟨⟨by decide, by decide⟩,
   DataVault.open_registers_streaming wStoreD wCtx 9 (.inl "1 - test")
     (by decide) (by decide)⟩

/-- Witness for **C8** at a concrete store, both error and success cases. -/
theorem mkdir_semantics_witness :
    (("" : String) = "" ∧ ("a" : String) ≠ ""
      ∧ wStore.exists_ (wCtx.path ++ ["a"]) = false)
    ∧ DataVault.mkdir wStore wCtx "" = (wStore, wCtx, .error .EmptyName)
    ∧ ((DataVault.mkdir wStore wCtx "a").2.1 = wCtx
        ∧ (DataVault.mkdir wStore wCtx "a").2.2 = .ok (wCtx.path ++ ["a"])
        ∧ ((DataVault.mkdir wStore wCtx "a").1).exists_ (wCtx.path ++ ["a"])
            = true) :=
  ⟨⟨rfl, by decide, by decide⟩,
   (DataVault.mkdir_semantics wStore wCtx "").1 rfl,
   (DataVault.mkdir_semantics wStore wCtx "a").2.2 (by decide) (by decide)⟩

/-- Witness for **C9** at a concrete store. -/
theorem mkdir_then_cd_witness :
    (("a" : String) ≠ "" ∧ wStore.exists_ (wCtx.path ++ ["a"]) = false)
    ∧ (DataVault.cd (DataVault.mkdir wStore wCtx "a").1
        ((DataVault.mkdir wStore wCtx "a").2.1) 7 (.segs ["a"]) false).2.2
      = .ok (wCtx.path ++ ["a"]) :=
  ⟨⟨by decide, by decide⟩,
   DataVault.mkdir_then_cd wStore wCtx "a" 7 (by decide) (by decide)⟩

/-- Witness for **C10** at a concrete failing `cd`. -/
theorem cd_error_no_mutation_witness :
    (DataVault.cd wStore wCtx 7 (.segs ["missing"]) false).2.2
      = .error (.DirectoryNotFound ["", "missing"])
    ∧ (DataVault.cd wStore wCtx 7 (.segs ["missing"]) false).2.1 = wCtx
    ∧ ∀ q, ((DataVault.cd wStore wCtx 7 (.segs ["missing"]) false).1).listenersAt q
        = wStore.listenersAt q :=
  ⟨by decide,
   (DataVault.cd_error_no_mutation wStore wCtx 7 (.segs ["missing"]) false
     (.DirectoryNotFound ["", "missing"]) (by decide)).1,
   (DataVault.cd_error_no_mutation wStore wCtx 7 (.segs ["missing"]) false
     (.DirectoryNotFound ["", "missing"]) (by decide)).2⟩
